import Mathlib

/-!
Verification of the AMD code object manager (comgr) interface contract.

The repository provides the C interface `lib/comgr/include/amd_comgr.h`:
status codes, data kinds, data objects, data sets, action info records and
the action catalog of `amd_comgr_do_action`.  The definitions below are a
shallow embedding of that contract: enumerations mirror the header's
enumerators, the reference-counted object store and the ordered data sets
mirror the documented object model, and each operation mirrors the
documented behaviour of the header function of the same name.  Where the
header only declares an operation and the behaviour is fixed by the
specification of the dispatch/data-set engine, the doc comment of the
definition says so explicitly.
-/

/-- Status codes of `amd_comgr_status_t` (amd_comgr.h, lines 126-148). -/
inductive Status where
  | SUCCESS
  | ERROR
  | ERROR_INVALID_ARGUMENT
  | ERROR_OUT_OF_RESOURCES
deriving DecidableEq, Repr

/-- Data kinds of `amd_comgr_data_kind_t` (amd_comgr.h, lines 212-261). -/
inductive DataKind where
  | UNDEF
  | SOURCE
  | INCLUDE
  | PRECOMPILED_HEADER
  | DIAGNOSTIC
  | LOG
  | BC
  | RELOCATABLE
  | EXECUTABLE
  | BYTES
deriving DecidableEq, Repr

/-- Source languages of `amd_comgr_language_t` (amd_comgr.h, lines 153-174). -/
inductive SourceLanguage where
  | NONE
  | OPENCL_1_2
  | OPENCL_2_0
  | HC
deriving DecidableEq, Repr

/-- A data object (amd_comgr.h, lines 263-271 and 438-464): a reference
counted, typed byte buffer with a name.  The kind is fixed at creation.
`isa_name` models the target identification associated with isa-specific
data (amd_comgr.h, lines 629-658); it is populated when the dispatch
engine produces the object. -/
structure DataObject where
  handle : Nat
  kind : DataKind
  name : List Char
  payload : List Nat
  refcount : Nat
  isa_name : List Char
deriving DecidableEq, Repr

/-- The store of live data objects, addressed by handle.  Handles are
allocated in increasing order and never reused while the store lives. -/
structure ComgrState where
  objects : List DataObject
  nextHandle : Nat
deriving DecidableEq, Repr

/-- The initial store: no live objects. -/
def initState : ComgrState := ⟨[], 0⟩

/-- Resolve a handle to its live data object, if any. -/
def resolve (st : ComgrState) (h : Nat) : Option DataObject :=
  st.objects.find? (fun d => d.handle == h)

/-- Apply `f` to the object with handle `h`, leaving all others in place. -/
def updateObj (st : ComgrState) (h : Nat) (f : DataObject → DataObject) : ComgrState :=
  ⟨st.objects.map (fun d => if d.handle == h then f d else d), st.nextHandle⟩

/-- Increment the reference count of the object with handle `h`. -/
def bumpRefcount (st : ComgrState) (h : Nat) : ComgrState :=
  updateObj st h (fun d => ⟨d.handle, d.kind, d.name, d.payload, d.refcount + 1, d.isa_name⟩)

/-- Decrement the reference count of the object with handle `h`,
destroying the object when the count reaches zero (amd_comgr.h,
lines 466-486). -/
def releaseHandle (st : ComgrState) (h : Nat) : ComgrState :=
  match resolve st h with
  | none => st
  | some d =>
    if d.refcount ≤ 1 then
      ⟨st.objects.filter (fun x => ¬(x.handle == h)), st.nextHandle⟩
    else
      updateObj st h (fun x => ⟨x.handle, x.kind, x.name, x.payload, x.refcount - 1, x.isa_name⟩)

/-- `amd_comgr_create_data` (amd_comgr.h, lines 438-464): creates a data
object of the given kind with reference count 1, zero bytes of data and
an empty name; rejects the `UNDEF` kind with `ERROR_INVALID_ARGUMENT`. -/
def amd_comgr_create_data (st : ComgrState) (kind : DataKind) :
    Status × ComgrState × Option Nat :=
  if kind = DataKind.UNDEF then
    (Status.ERROR_INVALID_ARGUMENT, st, none)
  else
    (Status.SUCCESS,
     ⟨st.objects ++ [⟨st.nextHandle, kind, [], [], 1, []⟩], st.nextHandle + 1⟩,
     some st.nextHandle)

/-- `amd_comgr_release_data` (amd_comgr.h, lines 466-486): decrements the
reference count, destroying the object at zero; fails with
`ERROR_INVALID_ARGUMENT` on an invalid handle or the `UNDEF` kind. -/
def amd_comgr_release_data (st : ComgrState) (h : Nat) : Status × ComgrState :=
  match resolve st h with
  | none => (Status.ERROR_INVALID_ARGUMENT, st)
  | some d =>
    if d.kind = DataKind.UNDEF then (Status.ERROR_INVALID_ARGUMENT, st)
    else (Status.SUCCESS, releaseHandle st h)

/-- `amd_comgr_set_data` (amd_comgr.h, lines 509-538): overwrites the
payload wholesale; fails with `ERROR_INVALID_ARGUMENT` on an invalid
handle or the `UNDEF` kind. -/
def amd_comgr_set_data (st : ComgrState) (h : Nat) (bytes : List Nat) :
    Status × ComgrState :=
  match resolve st h with
  | none => (Status.ERROR_INVALID_ARGUMENT, st)
  | some d =>
    if d.kind = DataKind.UNDEF then (Status.ERROR_INVALID_ARGUMENT, st)
    else
      (Status.SUCCESS,
       updateObj st h (fun x => ⟨x.handle, x.kind, x.name, bytes, x.refcount, x.isa_name⟩))

/-- `amd_comgr_set_data_name` (amd_comgr.h, lines 540-567): replaces the
name (a NULL argument sets the empty string); fails with
`ERROR_INVALID_ARGUMENT` on an invalid handle or the `UNDEF` kind. -/
def amd_comgr_set_data_name (st : ComgrState) (h : Nat) (name : List Char) :
    Status × ComgrState :=
  match resolve st h with
  | none => (Status.ERROR_INVALID_ARGUMENT, st)
  | some d =>
    if d.kind = DataKind.UNDEF then (Status.ERROR_INVALID_ARGUMENT, st)
    else
      (Status.SUCCESS,
       updateObj st h (fun x => ⟨x.handle, x.kind, name, x.payload, x.refcount, x.isa_name⟩))

/-- `amd_comgr_get_data` (amd_comgr.h, lines 569-597): two-phase query.
`cap` is the caller's buffer capacity and `wantBytes` models a non-NULL
`bytes` argument.  On success the returned size is the payload size and,
when a buffer is supplied, the first `cap` bytes of the payload are
copied into it. -/
def amd_comgr_get_data (st : ComgrState) (h : Nat) (cap : Nat) (wantBytes : Bool) :
    Status × Option Nat × Option (List Nat) :=
  match resolve st h with
  | none => (Status.ERROR_INVALID_ARGUMENT, none, none)
  | some d =>
    if d.kind = DataKind.UNDEF then (Status.ERROR_INVALID_ARGUMENT, none, none)
    else
      (Status.SUCCESS, some d.payload.length,
       if wantBytes then some (d.payload.take cap) else none)

/-- The validity check of `amd_comgr_data_set_add` (amd_comgr.h, lines
755-757): a data object may be added unless it has the `UNDEF` kind, or
has the `INCLUDE` kind but an empty name. -/
def addOk (d : DataObject) : Bool :=
  !(d.kind == DataKind.UNDEF) && !(d.kind == DataKind.INCLUDE && d.name.isEmpty)

/-- `amd_comgr_data_set_add` (amd_comgr.h, lines 741-765): adds a data
object to a data set if it is not already present, preserving insertion
order and incrementing the object's reference count; fails with
`ERROR_INVALID_ARGUMENT` on an invalid handle, the `UNDEF` kind, or an
`INCLUDE` object without a name (the error conditions are checked
before the membership test, as the header lists them unconditionally). -/
def amd_comgr_data_set_add (st : ComgrState) (set : List Nat) (h : Nat) :
    Status × ComgrState × List Nat :=
  match resolve st h with
  | none => (Status.ERROR_INVALID_ARGUMENT, st, set)
  | some d =>
    if addOk d then
      if h ∈ set then (Status.SUCCESS, st, set)
      else (Status.SUCCESS, bumpRefcount st h, set ++ [h])
    else (Status.ERROR_INVALID_ARGUMENT, st, set)

/-- The kind of the object a set entry resolves to, if it resolves. -/
def entryKind (st : ComgrState) (h : Nat) : Option DataKind :=
  (resolve st h).map (fun d => d.kind)

/-- `amd_comgr_data_set_remove` (amd_comgr.h, lines 767-789): removes
every data object of the given kind from the set, decrementing their
reference counts; the `UNDEF` kind acts as a wildcard removing all
data objects. -/
def amd_comgr_data_set_remove (st : ComgrState) (set : List Nat) (kind : DataKind) :
    Status × ComgrState × List Nat :=
  let removed :=
    if kind = DataKind.UNDEF then set
    else set.filter (fun h => entryKind st h == some kind)
  let kept :=
    if kind = DataKind.UNDEF then []
    else set.filter (fun h => ¬(entryKind st h == some kind))
  (Status.SUCCESS, removed.foldl releaseHandle st, kept)

/-- The members of a set holding objects of the given kind, in insertion
order. -/
def membersOfKind (st : ComgrState) (set : List Nat) (kind : DataKind) : List Nat :=
  set.filter (fun h => entryKind st h == some kind)

/-- `amd_comgr_action_data_count` (amd_comgr.h, lines 791-815): counts the
data objects of the given kind in a set; fails with
`ERROR_INVALID_ARGUMENT` for the `UNDEF` kind. -/
def amd_comgr_action_data_count (st : ComgrState) (set : List Nat) (kind : DataKind) :
    Status × Option Nat :=
  if kind = DataKind.UNDEF then (Status.ERROR_INVALID_ARGUMENT, none)
  else (Status.SUCCESS, some (membersOfKind st set kind).length)

/-- `amd_comgr_action_data_get_data` (amd_comgr.h, lines 817-849): returns
the Nth data object of the given kind (0-based, in insertion order),
incrementing its reference count; fails with `ERROR_INVALID_ARGUMENT`
for the `UNDEF` kind or an out-of-range index.  The out-of-range test is
`index ≥ count`, following the specification of `getNthByKind`; the
header's retval prose says "greater than", but at `index = count` there
is no Nth object to return, so success there is not expressible. -/
def amd_comgr_action_data_get_data (st : ComgrState) (set : List Nat)
    (kind : DataKind) (index : Nat) : Status × ComgrState × Option Nat :=
  if kind = DataKind.UNDEF then (Status.ERROR_INVALID_ARGUMENT, st, none)
  else
    match (membersOfKind st set kind)[index]? with
    | none => (Status.ERROR_INVALID_ARGUMENT, st, none)
    | some h => (Status.SUCCESS, bumpRefcount st h, some h)

/-- An action info record (amd_comgr.h, lines 284-292 and 851-1156): the
target isa name (empty when unset), source language (`NONE` when unset),
option string, working directory path and logging flag.  All fields
default to empty/none/false on creation. -/
structure ActionInfo where
  isa_name : List Char
  language : SourceLanguage
  options : List Char
  working_directory_path : List Char
  logging : Bool
deriving DecidableEq, Repr

/-- Action kinds of `amd_comgr_action_kind_t` (amd_comgr.h, lines
1161-1323). -/
inductive ActionKind where
  | SOURCE_TO_PREPROCESSOR
  | COMPILE_SOURCE_TO_BC
  | LINK_BC_TO_BC
  | OPTIMIZE_BC_TO_BC
  | CODEGEN_BC_TO_RELOCATABLE
  | CODEGEN_BC_TO_ASSEMBLY
  | LINK_RELOCATABLE_TO_RELOCATABLE
  | LINK_RELOCATABLE_TO_EXECUTABLE
  | ASSEMBLE_SOURCE_TO_RELOCATABLE
  | DISASSEMBLE_RELOCATABLE_TO_SOURCE
  | DISASSEMBLE_EXECUTABLE_TO_SOURCE
  | DISASSEMBLE_BYTES_TO_SOURCE
deriving DecidableEq, Repr

/-- The kind of input data object each action consumes, from the per-action
descriptions (amd_comgr.h, lines 1161-1323). -/
def actionInputKind : ActionKind → DataKind
  | ActionKind.SOURCE_TO_PREPROCESSOR => DataKind.SOURCE
  | ActionKind.COMPILE_SOURCE_TO_BC => DataKind.SOURCE
  | ActionKind.LINK_BC_TO_BC => DataKind.BC
  | ActionKind.OPTIMIZE_BC_TO_BC => DataKind.BC
  | ActionKind.CODEGEN_BC_TO_RELOCATABLE => DataKind.BC
  | ActionKind.CODEGEN_BC_TO_ASSEMBLY => DataKind.BC
  | ActionKind.LINK_RELOCATABLE_TO_RELOCATABLE => DataKind.RELOCATABLE
  | ActionKind.LINK_RELOCATABLE_TO_EXECUTABLE => DataKind.RELOCATABLE
  | ActionKind.ASSEMBLE_SOURCE_TO_RELOCATABLE => DataKind.SOURCE
  | ActionKind.DISASSEMBLE_RELOCATABLE_TO_SOURCE => DataKind.RELOCATABLE
  | ActionKind.DISASSEMBLE_EXECUTABLE_TO_SOURCE => DataKind.EXECUTABLE
  | ActionKind.DISASSEMBLE_BYTES_TO_SOURCE => DataKind.BYTES

/-- The kind of result data object each action produces, from the per-action
descriptions (amd_comgr.h, lines 1161-1323). -/
def actionOutputKind : ActionKind → DataKind
  | ActionKind.SOURCE_TO_PREPROCESSOR => DataKind.SOURCE
  | ActionKind.COMPILE_SOURCE_TO_BC => DataKind.BC
  | ActionKind.LINK_BC_TO_BC => DataKind.BC
  | ActionKind.OPTIMIZE_BC_TO_BC => DataKind.BC
  | ActionKind.CODEGEN_BC_TO_RELOCATABLE => DataKind.RELOCATABLE
  | ActionKind.CODEGEN_BC_TO_ASSEMBLY => DataKind.SOURCE
  | ActionKind.LINK_RELOCATABLE_TO_RELOCATABLE => DataKind.RELOCATABLE
  | ActionKind.LINK_RELOCATABLE_TO_EXECUTABLE => DataKind.EXECUTABLE
  | ActionKind.ASSEMBLE_SOURCE_TO_RELOCATABLE => DataKind.RELOCATABLE
  | ActionKind.DISASSEMBLE_RELOCATABLE_TO_SOURCE => DataKind.SOURCE
  | ActionKind.DISASSEMBLE_EXECUTABLE_TO_SOURCE => DataKind.SOURCE
  | ActionKind.DISASSEMBLE_BYTES_TO_SOURCE => DataKind.SOURCE

/-- The kinds of data object `amd_comgr_do_action` may place in the result
set for a given action: the action's result kind, plus diagnostic and log
objects (amd_comgr.h, lines 1328-1332). -/
def actionProducedKinds (k : ActionKind) : List DataKind :=
  [actionOutputKind k, DataKind.DIAGNOSTIC, DataKind.LOG]

/-- Whether the action is performed once per qualifying input, in order
("Preprocess each source data object in input in order", etc.): the
preprocess, compile, codegen, assemble and disassemble actions
(amd_comgr.h, lines 1161-1323).  The link actions and the optimizer
consume their qualifying inputs as a whole. -/
def perItemAction : ActionKind → Bool
  | ActionKind.SOURCE_TO_PREPROCESSOR => true
  | ActionKind.COMPILE_SOURCE_TO_BC => true
  | ActionKind.LINK_BC_TO_BC => false
  | ActionKind.OPTIMIZE_BC_TO_BC => false
  | ActionKind.CODEGEN_BC_TO_RELOCATABLE => true
  | ActionKind.CODEGEN_BC_TO_ASSEMBLY => true
  | ActionKind.LINK_RELOCATABLE_TO_RELOCATABLE => false
  | ActionKind.LINK_RELOCATABLE_TO_EXECUTABLE => false
  | ActionKind.ASSEMBLE_SOURCE_TO_RELOCATABLE => true
  | ActionKind.DISASSEMBLE_RELOCATABLE_TO_SOURCE => true
  | ActionKind.DISASSEMBLE_EXECUTABLE_TO_SOURCE => true
  | ActionKind.DISASSEMBLE_BYTES_TO_SOURCE => true

/-- Whether all objects in the list carry the same isa name (vacuously true
for the empty list). -/
def allSameIsa : List DataObject → Bool
  | [] => true
  | d :: rest => rest.all (fun x => x.isa_name == d.isa_name)

/-- Modelled from the spec: the per-action precondition check of the
dispatch engine (spec, section 4.5 step 3), whose implementation is not in
the repository snapshot; the conditions are those of the per-action
`ERROR_INVALID_ARGUMENT` clauses (amd_comgr.h, lines 1161-1323):
preprocess and compile require both the isa name and the language to be
set; assemble and disassemble-bytes require the isa name to be set; the
remaining actions require the isa name to be set or the isa names of all
qualifying inputs to agree. -/
def actionPrecondOk (k : ActionKind) (info : ActionInfo) (quals : List DataObject) : Bool :=
  match k with
  | ActionKind.SOURCE_TO_PREPROCESSOR =>
    !info.isa_name.isEmpty && !(info.language == SourceLanguage.NONE)
  | ActionKind.COMPILE_SOURCE_TO_BC =>
    !info.isa_name.isEmpty && !(info.language == SourceLanguage.NONE)
  | ActionKind.ASSEMBLE_SOURCE_TO_RELOCATABLE => !info.isa_name.isEmpty
  | ActionKind.DISASSEMBLE_BYTES_TO_SOURCE => !info.isa_name.isEmpty
  | _ => !info.isa_name.isEmpty || allSameIsa quals

/-- The qualifying input subset of an action: the members of the input set
holding objects of the action's input kind, resolved, in insertion order
(amd_comgr.h, lines 1328-1329: "Each action ignores any data objects in
input that it does not use"). -/
def qualifyingInputs (st : ComgrState) (k : ActionKind) (input : List Nat) :
    List DataObject :=
  (input.filterMap (resolve st)).filter (fun d => d.kind == actionInputKind k)

/-- Allocate a fresh result data object of the given kind with the given
payload, reference count 1 and the isa name of the action info. -/
def mkOutput (kind : DataKind) (info : ActionInfo) (st : ComgrState)
    (bytes : List Nat) : ComgrState × Nat :=
  (⟨st.objects ++ [⟨st.nextHandle, kind, [], bytes, 1, info.isa_name⟩], st.nextHandle + 1⟩,
   st.nextHandle)

/-- Modelled from the spec: the per-item loop of the dispatch engine
(spec, section 4.5 step 6), whose implementation is not in the repository
snapshot.  The opaque stage processor is invoked once per qualifying input
in order, each success produces one result object; a stage failure is
terminal for the call ("Return ERROR if any ... fails", amd_comgr.h,
lines 1170, 1184, 1219, 1232, 1273, 1284, 1296, 1312): no further item
is processed. -/
def processItems (k : ActionKind) (info : ActionInfo)
    (stage : ActionKind → ActionInfo → DataObject → Option (List Nat))
    (st : ComgrState) : List DataObject → Status × ComgrState × List Nat
  | [] => (Status.SUCCESS, st, [])
  | d :: rest =>
    match stage k info d with
    | none => (Status.ERROR, st, [])
    | some bytes =>
      let out := mkOutput (actionOutputKind k) info st bytes
      let next := processItems k info stage out.1 rest
      (next.1, next.2.1, out.2 :: next.2.2)

/-- Modelled from the spec: the aggregate branch of the dispatch engine
(spec, section 4.5 step 7), whose implementation is not in the repository
snapshot.  The stage processor is invoked once with the full ordered
qualifying subset and produces one linked result object; zero qualifying
inputs is not an error (spec, section 8). -/
def processAggregate (k : ActionKind) (info : ActionInfo)
    (stageAgg : ActionKind → ActionInfo → List DataObject → Option (List Nat))
    (st : ComgrState) (quals : List DataObject) : Status × ComgrState × List Nat :=
  match quals with
  | [] => (Status.SUCCESS, st, [])
  | _ =>
    match stageAgg k info quals with
    | none => (Status.ERROR, st, [])
    | some bytes =>
      let out := mkOutput (actionOutputKind k) info st bytes
      (Status.SUCCESS, out.1, [out.2])

/-- Allocate the log data object summarizing a run (amd_comgr.h, lines
1329-1330: "If logging is enabled in info then result will have a log
data object added"). -/
def mkLog (st : ComgrState) : ComgrState × Nat :=
  (⟨st.objects ++ [⟨st.nextHandle, DataKind.LOG, [], [], 1, []⟩], st.nextHandle + 1⟩,
   st.nextHandle)

/-- `amd_comgr_do_action` (amd_comgr.h, lines 1325-1363), with the opaque
stage processors passed as parameters; the action kind being a typed
enumerator, the invalid-enumerator branch is not representable.  Modelled
from the spec where the header leaves the order of the steps open (spec,
section 4.5): the per-action precondition is checked first, with no
side effect on failure; then any pre-existing data objects are removed
from `result` (amd_comgr.h, lines 1340-1341: "Any data objects are
removed before performing the action"); then the stage processors run
over the qualifying inputs; finally, when logging is enabled, a log data
object is appended whatever the outcome. -/
def amd_comgr_do_action (k : ActionKind) (info : ActionInfo)
    (stage : ActionKind → ActionInfo → DataObject → Option (List Nat))
    (stageAgg : ActionKind → ActionInfo → List DataObject → Option (List Nat))
    (st : ComgrState) (input result : List Nat) : Status × ComgrState × List Nat :=
  let quals := qualifyingInputs st k input
  if actionPrecondOk k info quals then
    let st0 := (result.foldl releaseHandle st : ComgrState)
    let run :=
      if perItemAction k then processItems k info stage st0 quals
      else processAggregate k info stageAgg st0 quals
    if info.logging then
      let lg := mkLog run.2.1
      (run.1, lg.1, run.2.2 ++ [lg.2])
    else
      (run.1, run.2.1, run.2.2)
  else
    (Status.ERROR_INVALID_ARGUMENT, st, result)

/-- Return types appearing in the interface's function declarations. -/
inductive CReturnType where
  | status
  | void
deriving DecidableEq, Repr

/-- A function declaration of the interface: its name and return type. -/
structure ApiFunction where
  name : String
  ret : CReturnType
deriving DecidableEq, Repr

/-- Every function declared by amd_comgr.h, in order of declaration, with
its return type as written in the header. -/
def apiSurface : List ApiFunction :=
  [⟨"amd_comgr_status_string", CReturnType.status⟩,
   ⟨"amd_comgr_get_version", CReturnType.void⟩,
   ⟨"amd_comgr_get_isa_count", CReturnType.status⟩,
   ⟨"amd_comgr_get_isa_name", CReturnType.status⟩,
   ⟨"amd_comgr_get_isa_metadata", CReturnType.status⟩,
   ⟨"amd_comgr_add_isa_default_device_libraries", CReturnType.status⟩,
   ⟨"amd_comgr_create_data", CReturnType.status⟩,
   ⟨"amd_comgr_release_data", CReturnType.status⟩,
   ⟨"amd_comgr_get_data_kind", CReturnType.status⟩,
   ⟨"amd_comgr_set_data", CReturnType.status⟩,
   ⟨"amd_comgr_set_data_name", CReturnType.status⟩,
   ⟨"amd_comgr_get_data", CReturnType.status⟩,
   ⟨"amd_comgr_get_data_name", CReturnType.status⟩,
   ⟨"amd_comgr_get_data_isa_name", CReturnType.status⟩,
   ⟨"amd_comgr_get_data_metadata", CReturnType.status⟩,
   ⟨"amd_comgr_destroy_metadata", CReturnType.status⟩,
   ⟨"amd_comgr_create_data_set", CReturnType.status⟩,
   ⟨"amd_comgr_destroy_data_set", CReturnType.status⟩,
   ⟨"amd_comgr_data_set_add", CReturnType.status⟩,
   ⟨"amd_comgr_data_set_remove", CReturnType.status⟩,
   ⟨"amd_comgr_action_data_count", CReturnType.status⟩,
   ⟨"amd_comgr_action_data_get_data", CReturnType.status⟩,
   ⟨"amd_comgr_create_action_info", CReturnType.status⟩,
   ⟨"amd_comgr_destroy_action_info", CReturnType.status⟩,
   ⟨"amd_comgr_action_info_set_isa_name", CReturnType.status⟩,
   ⟨"amd_comgr_action_info_get_isa_name", CReturnType.status⟩,
   ⟨"amd_comgr_action_info_set_language", CReturnType.status⟩,
   ⟨"amd_comgr_action_info_get_language", CReturnType.status⟩,
   ⟨"amd_comgr_action_info_set_options", CReturnType.status⟩,
   ⟨"amd_comgr_action_info_get_options", CReturnType.status⟩,
   ⟨"amd_comgr_action_info_set_working_directory_path", CReturnType.status⟩,
   ⟨"amd_comgr_action_info_get_working_directory_path", CReturnType.status⟩,
   ⟨"amd_comgr_action_info_set_logging", CReturnType.status⟩,
   ⟨"amd_comgr_action_info_get_logging", CReturnType.status⟩,
   ⟨"amd_comgr_do_action", CReturnType.status⟩,
   ⟨"amd_comgr_get_metadata_kind", CReturnType.status⟩,
   ⟨"amd_comgr_get_metadata_string", CReturnType.status⟩,
   ⟨"amd_comgr_get_metadata_map_size", CReturnType.status⟩,
   ⟨"amd_comgr_iterate_map_metadata", CReturnType.status⟩,
   ⟨"amd_comgr_metadata_lookup", CReturnType.status⟩,
   ⟨"amd_comgr_get_metadata_list_size", CReturnType.status⟩,
   ⟨"amd_comgr_index_list_metadata", CReturnType.status⟩,
   ⟨"amd_comgr_iterate_symbols", CReturnType.status⟩,
   ⟨"amd_comgr_symbol_lookup", CReturnType.status⟩,
   ⟨"amd_comgr_symbol_get_info", CReturnType.status⟩]

/-- The states of the object store reachable through the public interface,
starting from the empty store. -/
inductive Reachable : ComgrState → Prop where
  | init : Reachable initState
  | create (st : ComgrState) (kind : DataKind) :
      Reachable st → Reachable (amd_comgr_create_data st kind).2.1
  | release (st : ComgrState) (h : Nat) :
      Reachable st → Reachable (amd_comgr_release_data st h).2
  | set_data (st : ComgrState) (h : Nat) (bytes : List Nat) :
      Reachable st → Reachable (amd_comgr_set_data st h bytes).2
  | set_name (st : ComgrState) (h : Nat) (name : List Char) :
      Reachable st → Reachable (amd_comgr_set_data_name st h name).2
  | set_add (st : ComgrState) (set : List Nat) (h : Nat) :
      Reachable st → Reachable (amd_comgr_data_set_add st set h).2.1
  | set_remove (st : ComgrState) (set : List Nat) (kind : DataKind) :
      Reachable st → Reachable (amd_comgr_data_set_remove st set kind).2.1
  | get_nth (st : ComgrState) (set : List Nat) (kind : DataKind) (i : Nat) :
      Reachable st → Reachable (amd_comgr_action_data_get_data st set kind i).2.1
  | do_act (k : ActionKind) (info : ActionInfo)
      (stage : ActionKind → ActionInfo → DataObject → Option (List Nat))
      (stageAgg : ActionKind → ActionInfo → List DataObject → Option (List Nat))
      (st : ComgrState) (input result : List Nat) :
      Reachable st → Reachable (amd_comgr_do_action k info stage stageAgg st input result).2.1

/-- The documented `AMD_COMGR_DATA_KIND_UNDEF` failure branch shared by
`amd_comgr_release_data`, `amd_comgr_set_data` and the other per-object
operations: the handle resolves to an object of the `UNDEF` kind
(amd_comgr.h, lines 477-479, 527-529). -/
def undefKindBranch (st : ComgrState) (h : Nat) : Bool :=
  match resolve st h with
  | some d => d.kind == DataKind.UNDEF
  | none => false

/-! ### Helper lemmas about the object store -/

/-- Finding by handle in a list whose entries with handle `hdl` were
rewritten by a handle-preserving function commutes with the rewrite. -/
lemma find_map_handle (l : List DataObject) (hdl h' : Nat) (f : DataObject → DataObject)
    (hf : ∀ d, (f d).handle = d.handle) :
    (l.map (fun d => if d.handle == hdl then f d else d)).find? (fun d => d.handle == h') =
      (l.find? (fun d => d.handle == h')).map
        (fun d => if d.handle == hdl then f d else d) := by
  induction l with
  | nil => rfl
  | cons a l ih =>
    have hhead : (if a.handle == hdl then f a else a).handle = a.handle := by
      split <;> simp [hf]
    have hpred : ((if a.handle == hdl then f a else a).handle == h') = (a.handle == h') := by
      rw [hhead]
    simp only [List.map_cons]
    by_cases hb : (a.handle == h') = true
    · rw [List.find?_cons, List.find?_cons, hpred, hb]
      rfl
    · rw [Bool.not_eq_true] at hb
      rw [List.find?_cons, List.find?_cons, hpred, hb]
      exact ih

/-- Resolving after `updateObj` with a handle-preserving function. -/
lemma resolve_updateObj (st : ComgrState) (hdl h' : Nat) (f : DataObject → DataObject)
    (hf : ∀ d, (f d).handle = d.handle) :
    resolve (updateObj st hdl f) h' =
      (resolve st h').map (fun d => if d.handle == hdl then f d else d) := by
  unfold resolve updateObj
  exact find_map_handle st.objects hdl h' f hf

/-- A resolved object carries the handle it was looked up by. -/
lemma resolve_handle_eq (st : ComgrState) (h : Nat) (d : DataObject)
    (hres : resolve st h = some d) : d.handle = h := by
  have := List.find?_some hres
  simpa using this

/-- A resolved object is a member of the store. -/
lemma resolve_mem (st : ComgrState) (h : Nat) (d : DataObject)
    (hres : resolve st h = some d) : d ∈ st.objects :=
  List.mem_of_find?_eq_some hres

/-- Resolving the bumped handle after `bumpRefcount`. -/
lemma resolve_bumpRefcount (st : ComgrState) (h : Nat) (d : DataObject)
    (hres : resolve st h = some d) :
    resolve (bumpRefcount st h) h =
      some ⟨d.handle, d.kind, d.name, d.payload, d.refcount + 1, d.isa_name⟩ := by
  have hh := resolve_handle_eq st h d hres
  rw [bumpRefcount,
    resolve_updateObj st h h
      (fun d => ⟨d.handle, d.kind, d.name, d.payload, d.refcount + 1, d.isa_name⟩)
      (fun x => rfl),
    hres]
  simp [hh]

/-- `releaseHandle` does not change the next fresh handle. -/
lemma releaseHandle_nextHandle (st : ComgrState) (h : Nat) :
    (releaseHandle st h).nextHandle = st.nextHandle := by
  unfold releaseHandle
  rcases hres : resolve st h with _ | d <;> simp only [hres] <;> split <;> rfl

/-- Releasing a list of handles does not change the next fresh handle. -/
lemma foldl_release_nextHandle (l : List Nat) :
    ∀ st : ComgrState, (l.foldl releaseHandle st).nextHandle = st.nextHandle := by
  induction l with
  | nil => intro st; rfl
  | cons a l ih =>
    intro st
    rw [List.foldl_cons, ih, releaseHandle_nextHandle]

/-! ### Helper lemmas about the dispatch engine -/

/-- If the stage processor fails on any item of the list, the per-item
loop reports the generic error. -/
lemma processItems_fail (k : ActionKind) (info : ActionInfo)
    (stage : ActionKind → ActionInfo → DataObject → Option (List Nat)) :
    ∀ (l : List DataObject) (st : ComgrState),
      (∃ d ∈ l, stage k info d = none) →
      (processItems k info stage st l).1 = Status.ERROR := by
  intro l
  induction l with
  | nil =>
    intro st hex
    rcases hex with ⟨d, hd, _⟩
    exact absurd hd (List.not_mem_nil d)
  | cons a l ih =>
    intro st hex
    rcases hex with ⟨d, hd, hfail⟩
    rcases List.mem_cons.mp hd with heq | hmem
    · subst heq
      simp [processItems, hfail]
    · unfold processItems
      cases hs : stage k info a with
      | none => rfl
      | some bytes =>
        simp only
        exact ih _ ⟨d, hmem, hfail⟩

/-- Once the stage processor fails on an item, the items after it play no
part in the computation: the loop is insensitive to what follows the
failing item. -/
lemma processItems_stop (k : ActionKind) (info : ActionInfo)
    (stage : ActionKind → ActionInfo → DataObject → Option (List Nat)) :
    ∀ (l₁ : List DataObject) (x : DataObject) (l₂ l₂' : List DataObject) (st : ComgrState),
      stage k info x = none →
      processItems k info stage st (l₁ ++ x :: l₂) =
        processItems k info stage st (l₁ ++ x :: l₂') := by
  intro l₁
  induction l₁ with
  | nil =>
    intro x l₂ l₂' st hfail
    simp [processItems, hfail]
  | cons a l₁ ih =>
    intro x l₂ l₂' st hfail
    simp only [List.cons_append]
    unfold processItems
    cases hs : stage k info a with
    | none => rfl
    | some bytes =>
      simp only
      rw [ih x l₂ l₂' _ hfail]

/-- Every handle produced by the per-item loop is fresh: at least the next
fresh handle of the starting store. -/
lemma processItems_handles_ge (k : ActionKind) (info : ActionInfo)
    (stage : ActionKind → ActionInfo → DataObject → Option (List Nat)) :
    ∀ (l : List DataObject) (st : ComgrState) (h : Nat),
      h ∈ (processItems k info stage st l).2.2 → st.nextHandle ≤ h := by
  intro l
  induction l with
  | nil =>
    intro st h hmem
    exact absurd hmem (List.not_mem_nil h)
  | cons a l ih =>
    intro st h hmem
    unfold processItems at hmem
    cases hs : stage k info a with
    | none =>
      rw [hs] at hmem
      exact absurd hmem (List.not_mem_nil h)
    | some bytes =>
      rw [hs] at hmem
      simp only at hmem
      rcases List.mem_cons.mp hmem with heq | hmem'
      · exact Nat.le_of_eq heq.symm
      · exact Nat.le_of_succ_le (ih _ h hmem')

/-- The per-item loop only allocates: the next fresh handle never
decreases. -/
lemma processItems_nextHandle_ge (k : ActionKind) (info : ActionInfo)
    (stage : ActionKind → ActionInfo → DataObject → Option (List Nat)) :
    ∀ (l : List DataObject) (st : ComgrState),
      st.nextHandle ≤ (processItems k info stage st l).2.1.nextHandle := by
  intro l
  induction l with
  | nil => intro st; exact Nat.le_refl _
  | cons a l ih =>
    intro st
    unfold processItems
    cases hs : stage k info a with
    | none => exact Nat.le_refl _
    | some bytes =>
      simp only
      exact Nat.le_trans (Nat.le_succ _)
        (ih (mkOutput (actionOutputKind k) info st bytes).1)

/-- Every handle produced by the aggregate branch is fresh. -/
lemma processAggregate_handles_ge (k : ActionKind) (info : ActionInfo)
    (stageAgg : ActionKind → ActionInfo → List DataObject → Option (List Nat))
    (st : ComgrState) (quals : List DataObject) (h : Nat) :
    h ∈ (processAggregate k info stageAgg st quals).2.2 → st.nextHandle ≤ h := by
  intro hmem
  unfold processAggregate at hmem
  cases quals with
  | nil => exact absurd hmem (List.not_mem_nil h)
  | cons a l =>
    cases hs : stageAgg k info (a :: l) with
    | none =>
      rw [hs] at hmem
      exact absurd hmem (List.not_mem_nil h)
    | some bytes =>
      rw [hs] at hmem
      simp only [List.mem_singleton] at hmem
      exact Nat.le_of_eq hmem.symm

/-- The aggregate branch only allocates: the next fresh handle never
decreases. -/
lemma processAggregate_nextHandle_ge (k : ActionKind) (info : ActionInfo)
    (stageAgg : ActionKind → ActionInfo → List DataObject → Option (List Nat))
    (st : ComgrState) (quals : List DataObject) :
    st.nextHandle ≤ (processAggregate k info stageAgg st quals).2.1.nextHandle := by
  unfold processAggregate
  cases quals with
  | nil => exact Nat.le_refl _
  | cons a l =>
    cases hs : stageAgg k info (a :: l) with
    | none => exact Nat.le_refl _
    | some bytes => exact Nat.le_succ_of_le (Nat.le_refl _)

/-! ### The no-undefined-kind invariant of the object store -/

/-- No live object of the store has the `UNDEF` data kind. -/
def NoUndef (st : ComgrState) : Prop :=
  ∀ d ∈ st.objects, d.kind ≠ DataKind.UNDEF

/-- `updateObj` with a kind-preserving function preserves the invariant. -/
lemma noUndef_updateObj (st : ComgrState) (h : Nat) (f : DataObject → DataObject)
    (hf : ∀ d, (f d).kind = d.kind) (hst : NoUndef st) : NoUndef (updateObj st h f) := by
  intro d hd
  rcases List.mem_map.mp hd with ⟨a, ha, hda⟩
  have hk : d.kind = a.kind := by
    rw [← hda]
    split <;> simp [hf]
  rw [hk]
  exact hst a ha

/-- `releaseHandle` preserves the invariant. -/
lemma noUndef_releaseHandle (st : ComgrState) (h : Nat) (hst : NoUndef st) :
    NoUndef (releaseHandle st h) := by
  unfold releaseHandle
  cases resolve st h with
  | none => exact hst
  | some d =>
    simp only
    split
    · intro x hx
      exact hst x (List.mem_of_mem_filter hx)
    · exact noUndef_updateObj st h _ (fun x => rfl) hst

/-- Releasing a list of handles preserves the invariant. -/
lemma noUndef_foldl_release (l : List Nat) :
    ∀ st : ComgrState, NoUndef st → NoUndef (l.foldl releaseHandle st) := by
  induction l with
  | nil => intro st hst; exact hst
  | cons a l ih =>
    intro st hst
    rw [List.foldl_cons]
    exact ih _ (noUndef_releaseHandle st a hst)

/-- Appending an object of a non-`UNDEF` kind preserves the invariant. -/
lemma noUndef_append (objs : List DataObject) (n : Nat) (d : DataObject)
    (hd : d.kind ≠ DataKind.UNDEF)
    (hst : NoUndef ⟨objs, n⟩) :
    ∀ m : Nat, NoUndef ⟨objs ++ [d], m⟩ := by
  intro m x hx
  rcases List.mem_append.mp hx with hx | hx
  · exact hst x hx
  · rw [List.mem_singleton.mp hx]
    exact hd

/-- No action produces an `UNDEF`-kind result object. -/
lemma actionOutputKind_ne_undef (k : ActionKind) :
    actionOutputKind k ≠ DataKind.UNDEF := by
  cases k <;> simp [actionOutputKind]

/-- The per-item loop preserves the invariant. -/
lemma noUndef_processItems (k : ActionKind) (info : ActionInfo)
    (stage : ActionKind → ActionInfo → DataObject → Option (List Nat)) :
    ∀ (l : List DataObject) (st : ComgrState), NoUndef st →
      NoUndef (processItems k info stage st l).2.1 := by
  intro l
  induction l with
  | nil => intro st hst; exact hst
  | cons a l ih =>
    intro st hst
    unfold processItems
    cases hs : stage k info a with
    | none => exact hst
    | some bytes =>
      simp only
      exact ih _ (noUndef_append st.objects st.nextHandle _
        (actionOutputKind_ne_undef k) hst _)

/-- The aggregate branch preserves the invariant. -/
lemma noUndef_processAggregate (k : ActionKind) (info : ActionInfo)
    (stageAgg : ActionKind → ActionInfo → List DataObject → Option (List Nat))
    (st : ComgrState) (quals : List DataObject) (hst : NoUndef st) :
    NoUndef (processAggregate k info stageAgg st quals).2.1 := by
  unfold processAggregate
  cases quals with
  | nil => exact hst
  | cons a l =>
    cases hs : stageAgg k info (a :: l) with
    | none => exact hst
    | some bytes =>
      exact noUndef_append st.objects st.nextHandle _ (actionOutputKind_ne_undef k) hst _

/-- `mkLog` preserves the invariant. -/
lemma noUndef_mkLog (st : ComgrState) (hst : NoUndef st) : NoUndef (mkLog st).1 := by
  unfold mkLog
  exact noUndef_append st.objects st.nextHandle _ (by simp) hst _

/-- `amd_comgr_do_action` preserves the invariant. -/
lemma noUndef_do_action (k : ActionKind) (info : ActionInfo)
    (stage : ActionKind → ActionInfo → DataObject → Option (List Nat))
    (stageAgg : ActionKind → ActionInfo → List DataObject → Option (List Nat))
    (st : ComgrState) (input result : List Nat) (hst : NoUndef st) :
    NoUndef (amd_comgr_do_action k info stage stageAgg st input result).2.1 := by
  have h0 : NoUndef (result.foldl releaseHandle st) :=
    noUndef_foldl_release result st hst
  by_cases hpre : actionPrecondOk k info (qualifyingInputs st k input) = true
  · by_cases hper : perItemAction k = true
    · by_cases hlog : info.logging = true
      · simp only [amd_comgr_do_action, hpre, hper, hlog, if_true]
        exact noUndef_mkLog _ (noUndef_processItems k info stage _ _ h0)
      · simp only [amd_comgr_do_action, hpre, hper, hlog, if_true, if_false,
          Bool.false_eq_true]
        exact noUndef_processItems k info stage _ _ h0
    · by_cases hlog : info.logging = true
      · simp only [amd_comgr_do_action, hpre, hper, hlog, if_true, if_false,
          Bool.false_eq_true]
        exact noUndef_mkLog _ (noUndef_processAggregate k info stageAgg _ _ h0)
      · simp only [amd_comgr_do_action, hpre, hper, hlog, if_true, if_false,
          Bool.false_eq_true]
        exact noUndef_processAggregate k info stageAgg _ _ h0
  · simp only [amd_comgr_do_action, hpre, if_false, Bool.false_eq_true]
    exact hst

/-- `amd_comgr_create_data` preserves the invariant: the `UNDEF` kind is
rejected, any other kind is allowed. -/
lemma noUndef_create (st : ComgrState) (kind : DataKind) (hst : NoUndef st) :
    NoUndef (amd_comgr_create_data st kind).2.1 := by
  unfold amd_comgr_create_data
  split
  · exact hst
  · rename_i hk
    exact noUndef_append st.objects st.nextHandle _ hk hst _

/-- `amd_comgr_release_data` preserves the invariant. -/
lemma noUndef_release_data (st : ComgrState) (h : Nat) (hst : NoUndef st) :
    NoUndef (amd_comgr_release_data st h).2 := by
  unfold amd_comgr_release_data
  cases resolve st h with
  | none => exact hst
  | some d =>
    simp only
    split
    · exact hst
    · exact noUndef_releaseHandle st h hst

/-- `amd_comgr_set_data` preserves the invariant. -/
lemma noUndef_set_data (st : ComgrState) (h : Nat) (bytes : List Nat)
    (hst : NoUndef st) : NoUndef (amd_comgr_set_data st h bytes).2 := by
  unfold amd_comgr_set_data
  cases resolve st h with
  | none => exact hst
  | some d =>
    simp only
    split
    · exact hst
    · exact noUndef_updateObj st h _ (fun x => rfl) hst

/-- `amd_comgr_set_data_name` preserves the invariant. -/
lemma noUndef_set_data_name (st : ComgrState) (h : Nat) (name : List Char)
    (hst : NoUndef st) : NoUndef (amd_comgr_set_data_name st h name).2 := by
  unfold amd_comgr_set_data_name
  cases resolve st h with
  | none => exact hst
  | some d =>
    simp only
    split
    · exact hst
    · exact noUndef_updateObj st h _ (fun x => rfl) hst

/-- `amd_comgr_data_set_add` preserves the invariant. -/
lemma noUndef_set_add (st : ComgrState) (set : List Nat) (h : Nat)
    (hst : NoUndef st) : NoUndef (amd_comgr_data_set_add st set h).2.1 := by
  unfold amd_comgr_data_set_add
  cases resolve st h with
  | none => exact hst
  | some d =>
    simp only
    split
    · split
      · exact hst
      · exact noUndef_updateObj st h _ (fun x => rfl) hst
    · exact hst

/-- `amd_comgr_data_set_remove` preserves the invariant. -/
lemma noUndef_set_remove (st : ComgrState) (set : List Nat) (kind : DataKind)
    (hst : NoUndef st) : NoUndef (amd_comgr_data_set_remove st set kind).2.1 := by
  unfold amd_comgr_data_set_remove
  split <;> exact noUndef_foldl_release _ st hst

/-- `amd_comgr_action_data_get_data` preserves the invariant. -/
lemma noUndef_get_nth (st : ComgrState) (set : List Nat) (kind : DataKind)
    (i : Nat) (hst : NoUndef st) :
    NoUndef (amd_comgr_action_data_get_data st set kind i).2.1 := by
  unfold amd_comgr_action_data_get_data
  split
  · exact hst
  · split
    · exact hst
    · exact noUndef_updateObj st _ _ (fun x => rfl) hst

/-- Every store reachable through the public interface satisfies the
no-undefined-kind invariant. -/
lemma reachable_noUndef (st : ComgrState) (hreach : Reachable st) : NoUndef st := by
  induction hreach with
  | init => intro d hd; exact absurd hd (List.not_mem_nil d)
  | create st kind _ ih => exact noUndef_create st kind ih
  | release st h _ ih => exact noUndef_release_data st h ih
  | set_data st h bytes _ ih => exact noUndef_set_data st h bytes ih
  | set_name st h name _ ih => exact noUndef_set_data_name st h name ih
  | set_add st set h _ ih => exact noUndef_set_add st set h ih
  | set_remove st set kind _ ih => exact noUndef_set_remove st set kind ih
  | get_nth st set kind i _ ih => exact noUndef_get_nth st set kind i ih
  | do_act k info stage stageAgg st input result _ ih =>
    exact noUndef_do_action k info stage stageAgg st input result ih

/-! ### The claims -/

/-- Claim C2, counterexample: it is not the case that every public
operation of the interface returns a status code — `amd_comgr_get_version`
is declared with a `void` return type (amd_comgr.h, line 205). -/
theorem claim_C2_counterexample :
    ¬ (∀ f ∈ apiSurface, f.ret = CReturnType.status) := by
  decide

/-- Claim C2, amended: every public operation of the interface except
`amd_comgr_get_version` returns a status code, and for the modelled
operations a failing call leaves every out-parameter in a defined, empty
state and the object store unchanged. -/
theorem claim_C2_amended :
    (∀ f ∈ apiSurface, f.name ≠ "amd_comgr_get_version" → f.ret = CReturnType.status)
    ∧ (∀ (st : ComgrState) (kind : DataKind),
        (amd_comgr_create_data st kind).1 ≠ Status.SUCCESS →
        (amd_comgr_create_data st kind).2.1 = st
        ∧ (amd_comgr_create_data st kind).2.2 = none)
    ∧ (∀ (st : ComgrState) (set : List Nat) (kind : DataKind),
        (amd_comgr_action_data_count st set kind).1 ≠ Status.SUCCESS →
        (amd_comgr_action_data_count st set kind).2 = none)
    ∧ (∀ (st : ComgrState) (set : List Nat) (kind : DataKind) (i : Nat),
        (amd_comgr_action_data_get_data st set kind i).1 ≠ Status.SUCCESS →
        (amd_comgr_action_data_get_data st set kind i).2.1 = st
        ∧ (amd_comgr_action_data_get_data st set kind i).2.2 = none)
    ∧ (∀ (st : ComgrState) (h cap : Nat) (w : Bool),
        (amd_comgr_get_data st h cap w).1 ≠ Status.SUCCESS →
        (amd_comgr_get_data st h cap w).2.1 = none
        ∧ (amd_comgr_get_data st h cap w).2.2 = none) := by
  refine ⟨by decide, ?_, ?_, ?_, ?_⟩
  · intro st kind hfail
    by_cases hk : kind = DataKind.UNDEF
    · constructor <;> simp [amd_comgr_create_data, hk]
    · exact absurd (by simp [amd_comgr_create_data, hk]) hfail
  · intro st set kind hfail
    by_cases hk : kind = DataKind.UNDEF
    · simp [amd_comgr_action_data_count, hk]
    · exact absurd (by simp [amd_comgr_action_data_count, hk]) hfail
  · intro st set kind i hfail
    by_cases hk : kind = DataKind.UNDEF
    · constructor <;> simp [amd_comgr_action_data_get_data, hk]
    · cases hg : (membersOfKind st set kind)[i]? with
      | none =>
        constructor <;> simp [amd_comgr_action_data_get_data, hk, hg]
      | some x =>
        exact absurd (by simp [amd_comgr_action_data_get_data, hk, hg]) hfail
  · intro st h cap w hfail
    cases hres : resolve st h with
    | none => constructor <;> simp [amd_comgr_get_data, hres]
    | some d =>
      by_cases hk : d.kind = DataKind.UNDEF
      · constructor <;> simp [amd_comgr_get_data, hres, hk]
      · exact absurd (by simp [amd_comgr_get_data, hres, hk]) hfail

/-- Claim C2, witness for the amended statement at a concrete function. -/
theorem claim_C2_witness :
    (⟨"amd_comgr_do_action", CReturnType.status⟩ : ApiFunction).ret = CReturnType.status :=
  claim_C2_amended.1 ⟨"amd_comgr_do_action", CReturnType.status⟩ (by decide) (by decide)

/-- Claim C3: dispatching the compile-source-to-bc action with an action
info whose isa name is unset fails with `ERROR_INVALID_ARGUMENT`, no
stage processor is invoked (the outcome is the same for every stage
processor and independent of it), and the output data set and object
store are unchanged. -/
theorem claim_C3 (info : ActionInfo)
    (stage : ActionKind → ActionInfo → DataObject → Option (List Nat))
    (stageAgg : ActionKind → ActionInfo → List DataObject → Option (List Nat))
    (st : ComgrState) (input result : List Nat)
    (hisa : info.isa_name = []) :
    amd_comgr_do_action ActionKind.COMPILE_SOURCE_TO_BC info stage stageAgg st input result =
      (Status.ERROR_INVALID_ARGUMENT, st, result) := by
  have hpre : actionPrecondOk ActionKind.COMPILE_SOURCE_TO_BC info
      (qualifyingInputs st ActionKind.COMPILE_SOURCE_TO_BC input) = false := by
    simp [actionPrecondOk, hisa]
  simp [amd_comgr_do_action, hpre]

/-- Claim C3, witness at a concrete instance. -/
theorem claim_C3_witness :
    amd_comgr_do_action ActionKind.COMPILE_SOURCE_TO_BC
        ⟨[], SourceLanguage.OPENCL_1_2, [], [], false⟩
        (fun _ _ _ => some []) (fun _ _ _ => some [])
        ⟨[⟨0, DataKind.SOURCE, [], [], 1, []⟩], 1⟩ [0] [] =
      (Status.ERROR_INVALID_ARGUMENT, ⟨[⟨0, DataKind.SOURCE, [], [], 1, []⟩], 1⟩, []) :=
  claim_C3 ⟨[], SourceLanguage.OPENCL_1_2, [], [], false⟩
    (fun _ _ _ => some []) (fun _ _ _ => some [])
    ⟨[⟨0, DataKind.SOURCE, [], [], 1, []⟩], 1⟩ [0] [] rfl

/-- Claim C5: retrieving the Nth data object of a concrete kind fails with
`ERROR_INVALID_ARGUMENT` exactly when the index is not below the count of
objects of that kind; otherwise it succeeds, returns the index-th such
object in insertion order, and increments that object's reference
count. -/
theorem claim_C5 (st : ComgrState) (set : List Nat) (kind : DataKind) (i : Nat)
    (hk : kind ≠ DataKind.UNDEF) :
    ((amd_comgr_action_data_get_data st set kind i).1 = Status.ERROR_INVALID_ARGUMENT ↔
      (membersOfKind st set kind).length ≤ i)
    ∧ ((amd_comgr_action_data_count st set kind).2 =
        some (membersOfKind st set kind).length)
    ∧ ∀ h : Nat, (membersOfKind st set kind)[i]? = some h →
        (amd_comgr_action_data_get_data st set kind i).1 = Status.SUCCESS
        ∧ (amd_comgr_action_data_get_data st set kind i).2.2 = some h
        ∧ ∀ d : DataObject, resolve st h = some d →
            resolve (amd_comgr_action_data_get_data st set kind i).2.1 h =
              some ⟨d.handle, d.kind, d.name, d.payload, d.refcount + 1, d.isa_name⟩ := by
  refine ⟨?_, ?_, ?_⟩
  · unfold amd_comgr_action_data_get_data
    rw [if_neg hk]
    cases hget : (membersOfKind st set kind)[i]? with
    | none =>
      exact ⟨fun _ => List.getElem?_eq_none_iff.mp hget, fun _ => rfl⟩
    | some h =>
      refine ⟨fun hstat => Status.noConfusion hstat, fun hge => ?_⟩
      rw [List.getElem?_eq_none_iff.mpr hge] at hget
      cases hget
  · unfold amd_comgr_action_data_count
    rw [if_neg hk]
  · intro h hget
    unfold amd_comgr_action_data_get_data
    rw [if_neg hk, hget]
    refine ⟨rfl, rfl, ?_⟩
    intro d hd
    exact resolve_bumpRefcount st h d hd

/-- Claim C5, witness at a concrete instance: a set holding one source
object, queried at index 0 (success, reference count bumped) and at
index 1 (out of range). -/
theorem claim_C5_witness :
    ((amd_comgr_action_data_get_data ⟨[⟨0, DataKind.SOURCE, [], [], 1, []⟩], 1⟩ [0]
        DataKind.SOURCE 0).1 = Status.SUCCESS
      ∧ (amd_comgr_action_data_get_data ⟨[⟨0, DataKind.SOURCE, [], [], 1, []⟩], 1⟩ [0]
        DataKind.SOURCE 0).2.2 = some 0)
    ∧ ((amd_comgr_action_data_get_data ⟨[⟨0, DataKind.SOURCE, [], [], 1, []⟩], 1⟩ [0]
        DataKind.SOURCE 1).1 = Status.ERROR_INVALID_ARGUMENT) := by
  constructor
  · have hc := (claim_C5 ⟨[⟨0, DataKind.SOURCE, [], [], 1, []⟩], 1⟩ [0]
      DataKind.SOURCE 0 (by decide)).2.2 0 (by decide)
    exact ⟨hc.1, hc.2.1⟩
  · exact (claim_C5 ⟨[⟨0, DataKind.SOURCE, [], [], 1, []⟩], 1⟩ [0]
      DataKind.SOURCE 1 (by decide)).1.mpr (by decide)

/-- Claim C6: removing by the undefined (wildcard) kind succeeds and
empties the data set, whereas counting by the undefined kind fails with
`ERROR_INVALID_ARGUMENT`; counting with any concrete kind succeeds. -/
theorem claim_C6 (st : ComgrState) (set : List Nat) :
    (amd_comgr_data_set_remove st set DataKind.UNDEF).1 = Status.SUCCESS
    ∧ (amd_comgr_data_set_remove st set DataKind.UNDEF).2.2 = []
    ∧ (amd_comgr_action_data_count st set DataKind.UNDEF).1 =
        Status.ERROR_INVALID_ARGUMENT
    ∧ ∀ kind : DataKind, kind ≠ DataKind.UNDEF →
        (amd_comgr_action_data_count st set kind).1 = Status.SUCCESS := by
  refine ⟨rfl, ?_, rfl, ?_⟩
  · simp [amd_comgr_data_set_remove]
  · intro kind hk
    unfold amd_comgr_action_data_count
    rw [if_neg hk]

/-- Claim C6, witness at a concrete instance. -/
theorem claim_C6_witness :
    (amd_comgr_data_set_remove ⟨[⟨0, DataKind.SOURCE, [], [], 1, []⟩], 1⟩ [0]
        DataKind.UNDEF).2.2 = []
    ∧ (amd_comgr_action_data_count ⟨[⟨0, DataKind.SOURCE, [], [], 1, []⟩], 1⟩ [0]
        DataKind.SOURCE).1 = Status.SUCCESS :=
  ⟨(claim_C6 ⟨[⟨0, DataKind.SOURCE, [], [], 1, []⟩], 1⟩ [0]).2.1,
   (claim_C6 ⟨[⟨0, DataKind.SOURCE, [], [], 1, []⟩], 1⟩ [0]).2.2.2
     DataKind.SOURCE (by decide)⟩

/-- Claim C7, counterexample: an include data object that is added to a
data set and whose name is subsequently set to the empty string cannot be
added a second time — the second add fails with `ERROR_INVALID_ARGUMENT`
instead of succeeding, because the validity conditions of
`amd_comgr_data_set_add` are checked on every call. -/
theorem claim_C7_counterexample :
    let st1 := (amd_comgr_create_data initState DataKind.INCLUDE).2.1
    let st2 := (amd_comgr_set_data_name st1 0 ['a']).2
    let r1 := amd_comgr_data_set_add st2 [] 0
    let st3 := (amd_comgr_set_data_name r1.2.1 0 []).2
    let r2 := amd_comgr_data_set_add st3 r1.2.2 0
    r1.1 = Status.SUCCESS ∧ r1.2.2 = [0] ∧ (0 : Nat) ∈ r1.2.2 ∧
      r2.1 = Status.ERROR_INVALID_ARGUMENT := by
  decide

/-- Claim C7, amended: adding a data object that is already contained in a
data set leaves the store, the set (hence every kind's count and the
object's insertion position) unchanged; the second add succeeds exactly
when the object still passes the add validity check (kind is not `UNDEF`
and, for the include kind, the name is non-empty) and otherwise fails
with `ERROR_INVALID_ARGUMENT`, still leaving the set unchanged. -/
theorem claim_C7_amended (st : ComgrState) (set : List Nat) (h : Nat)
    (d : DataObject) (hres : resolve st h = some d) (hmem : h ∈ set) :
    (amd_comgr_data_set_add st set h).2.1 = st
    ∧ (amd_comgr_data_set_add st set h).2.2 = set
    ∧ ((amd_comgr_data_set_add st set h).1 = Status.SUCCESS ↔ addOk d = true)
    ∧ ∀ kind : DataKind,
        amd_comgr_action_data_count (amd_comgr_data_set_add st set h).2.1
            (amd_comgr_data_set_add st set h).2.2 kind =
          amd_comgr_action_data_count st set kind := by
  simp only [amd_comgr_data_set_add, hres]
  by_cases hok : addOk d = true
  · rw [if_pos hok, if_pos hmem]
    exact ⟨rfl, rfl, ⟨fun _ => hok, fun _ => rfl⟩, fun kind => rfl⟩
  · rw [if_neg hok]
    exact ⟨rfl, rfl, ⟨fun hstat => absurd hstat (by simp), fun hcontra => absurd hcontra hok⟩,
      fun kind => rfl⟩

/-- Claim C7, witness for the amended statement: re-adding a source object
already present in a set is a successful no-op. -/
theorem claim_C7_amended_witness :
    (amd_comgr_data_set_add ⟨[⟨0, DataKind.SOURCE, [], [], 2, []⟩], 1⟩ [0] 0).2.2 = [0]
    ∧ (amd_comgr_data_set_add ⟨[⟨0, DataKind.SOURCE, [], [], 2, []⟩], 1⟩ [0] 0).1 =
        Status.SUCCESS :=
  ⟨(claim_C7_amended ⟨[⟨0, DataKind.SOURCE, [], [], 2, []⟩], 1⟩ [0] 0
      ⟨0, DataKind.SOURCE, [], [], 2, []⟩ (by decide) (by decide)).2.1,
   (claim_C7_amended ⟨[⟨0, DataKind.SOURCE, [], [], 2, []⟩], 1⟩ [0] 0
      ⟨0, DataKind.SOURCE, [], [], 2, []⟩ (by decide) (by decide)).2.2.1.mpr (by decide)⟩

/-- Claim C8: adding a data object of the `UNDEF` kind, or of the
`INCLUDE` kind with an empty name, fails with `ERROR_INVALID_ARGUMENT`
and leaves both the store and the data set unchanged. -/
theorem claim_C8 (st : ComgrState) (set : List Nat) (h : Nat) (d : DataObject)
    (hres : resolve st h = some d)
    (hbad : d.kind = DataKind.UNDEF ∨ (d.kind = DataKind.INCLUDE ∧ d.name = [])) :
    amd_comgr_data_set_add st set h = (Status.ERROR_INVALID_ARGUMENT, st, set) := by
  have hok : ¬ addOk d = true := by
    rcases hbad with h1 | h12
    · simp [addOk, h1]
    · simp [addOk, h12.1, h12.2]
  simp only [amd_comgr_data_set_add, hres]
  rw [if_neg hok]

/-- Claim C8, witness at a concrete instance: an include object with an
empty name is rejected. -/
theorem claim_C8_witness :
    amd_comgr_data_set_add ⟨[⟨0, DataKind.INCLUDE, [], [], 1, []⟩], 1⟩ [] 0 =
      (Status.ERROR_INVALID_ARGUMENT, ⟨[⟨0, DataKind.INCLUDE, [], [], 1, []⟩], 1⟩, []) :=
  claim_C8 ⟨[⟨0, DataKind.INCLUDE, [], [], 1, []⟩], 1⟩ [] 0
    ⟨0, DataKind.INCLUDE, [], [], 1, []⟩ (by decide) (Or.inr ⟨rfl, rfl⟩)

/-- Claim C9: after setting the payload of a (non-`UNDEF`) data object to
an arbitrary byte sequence, getting the data reports a size equal to the
sequence's length and, with a buffer of sufficient capacity, copies back
exactly that sequence. -/
theorem claim_C9 (st : ComgrState) (h : Nat) (d : DataObject) (bytes : List Nat)
    (cap : Nat) (hres : resolve st h = some d) (hkind : d.kind ≠ DataKind.UNDEF) :
    (amd_comgr_set_data st h bytes).1 = Status.SUCCESS
    ∧ (amd_comgr_get_data (amd_comgr_set_data st h bytes).2 h cap true).1 =
        Status.SUCCESS
    ∧ (amd_comgr_get_data (amd_comgr_set_data st h bytes).2 h cap true).2.1 =
        some bytes.length
    ∧ (bytes.length ≤ cap →
        (amd_comgr_get_data (amd_comgr_set_data st h bytes).2 h cap true).2.2 =
          some bytes) := by
  have hh := resolve_handle_eq st h d hres
  have hst' : (amd_comgr_set_data st h bytes).2 =
      updateObj st h (fun x => ⟨x.handle, x.kind, x.name, bytes, x.refcount, x.isa_name⟩) := by
    simp [amd_comgr_set_data, hres, hkind]
  have hres' : resolve (amd_comgr_set_data st h bytes).2 h =
      some ⟨d.handle, d.kind, d.name, bytes, d.refcount, d.isa_name⟩ := by
    rw [hst',
      resolve_updateObj st h h
        (fun x => ⟨x.handle, x.kind, x.name, bytes, x.refcount, x.isa_name⟩)
        (fun x => rfl),
      hres]
    simp [hh]
  have hstat : (amd_comgr_set_data st h bytes).1 = Status.SUCCESS := by
    simp [amd_comgr_set_data, hres, hkind]
  refine ⟨hstat, ?_, ?_, ?_⟩
  · simp [amd_comgr_get_data, hres', hkind]
  · simp [amd_comgr_get_data, hres', hkind]
  · intro hcap
    simp [amd_comgr_get_data, hres', hkind, List.take_of_length_le hcap]

/-- Claim C9, witness at a concrete instance: a three-byte payload with an
embedded zero byte round-trips through set and get. -/
theorem claim_C9_witness :
    (amd_comgr_get_data
        (amd_comgr_set_data ⟨[⟨0, DataKind.SOURCE, [], [], 1, []⟩], 1⟩ 0 [7, 0, 9]).2
        0 3 true).2.2 = some [7, 0, 9] :=
  (claim_C9 ⟨[⟨0, DataKind.SOURCE, [], [], 1, []⟩], 1⟩ 0
      ⟨0, DataKind.SOURCE, [], [], 1, []⟩ [7, 0, 9] 3 (by decide) (by decide)).2.2.2
    (by decide)

/-- Freshness of the result set of `amd_comgr_do_action`: when the
per-action precondition holds, every handle in the returned result set
was allocated by this call, so it is at least the next fresh handle of
the starting store. -/
lemma do_action_result_fresh (k : ActionKind) (info : ActionInfo)
    (stage : ActionKind → ActionInfo → DataObject → Option (List Nat))
    (stageAgg : ActionKind → ActionInfo → List DataObject → Option (List Nat))
    (st : ComgrState) (input result : List Nat) (h : Nat)
    (hpre : actionPrecondOk k info (qualifyingInputs st k input) = true)
    (hmem : h ∈ (amd_comgr_do_action k info stage stageAgg st input result).2.2) :
    st.nextHandle ≤ h := by
  have h0 : (result.foldl releaseHandle st).nextHandle = st.nextHandle :=
    foldl_release_nextHandle result st
  by_cases hper : perItemAction k = true
  · by_cases hlog : info.logging = true
    · simp only [amd_comgr_do_action, mkLog, hpre, hper, hlog, if_true] at hmem
      rcases List.mem_append.mp hmem with hm | hm
      · exact Nat.le_trans (Nat.le_of_eq h0.symm)
          (processItems_handles_ge k info stage _ _ h hm)
      · rw [List.mem_singleton.mp hm]
        exact Nat.le_trans (Nat.le_of_eq h0.symm) (processItems_nextHandle_ge k info stage _ _)
    · simp only [amd_comgr_do_action, hpre, hper, hlog, if_true, if_false,
        Bool.false_eq_true] at hmem
      exact Nat.le_trans (Nat.le_of_eq h0.symm)
        (processItems_handles_ge k info stage _ _ h hmem)
  · by_cases hlog : info.logging = true
    · simp only [amd_comgr_do_action, mkLog, hpre, hper, hlog, if_true, if_false,
        Bool.false_eq_true] at hmem
      rcases List.mem_append.mp hmem with hm | hm
      · exact Nat.le_trans (Nat.le_of_eq h0.symm)
          (processAggregate_handles_ge k info stageAgg _ _ h hm)
      · rw [List.mem_singleton.mp hm]
        exact Nat.le_trans (Nat.le_of_eq h0.symm)
          (processAggregate_nextHandle_ge k info stageAgg _ _)
    · simp only [amd_comgr_do_action, hpre, hper, hlog, if_true, if_false,
        Bool.false_eq_true] at hmem
      exact Nat.le_trans (Nat.le_of_eq h0.symm)
        (processAggregate_handles_ge k info stageAgg _ _ h hmem)

/-- Claim C1, counterexample: `amd_comgr_do_action` does not remove only
objects of the kinds the action produces — a pre-existing executable
object in the result set is removed by a preprocess action even though
the executable kind is not among the kinds that action produces. -/
theorem claim_C1_counterexample :
    let st : ComgrState := ⟨[⟨0, DataKind.EXECUTABLE, [], [], 1, []⟩], 1⟩
    let info : ActionInfo := ⟨['g'], SourceLanguage.OPENCL_1_2, [], [], false⟩
    let out := amd_comgr_do_action ActionKind.SOURCE_TO_PREPROCESSOR info
      (fun _ _ _ => some []) (fun _ _ _ => some []) st [] [0]
    (0 : Nat) ∈ [(0 : Nat)]
    ∧ resolve st 0 = some ⟨0, DataKind.EXECUTABLE, [], [], 1, []⟩
    ∧ DataKind.EXECUTABLE ∉ actionProducedKinds ActionKind.SOURCE_TO_PREPROCESSOR
    ∧ out.1 = Status.SUCCESS
    ∧ (0 : Nat) ∉ out.2.2 := by
  decide

/-- Claim C1, amended: when `amd_comgr_do_action` begins performing the
action (it does not fail the precondition check), every pre-existing
data object is removed from the result set, regardless of its kind: the
returned result set holds only objects produced by this call. -/
theorem claim_C1_amended (k : ActionKind) (info : ActionInfo)
    (stage : ActionKind → ActionInfo → DataObject → Option (List Nat))
    (stageAgg : ActionKind → ActionInfo → List DataObject → Option (List Nat))
    (st : ComgrState) (input result : List Nat) (h : Nat)
    (_hmem : h ∈ result) (hlive : h < st.nextHandle)
    (hrun : (amd_comgr_do_action k info stage stageAgg st input result).1 ≠
      Status.ERROR_INVALID_ARGUMENT) :
    h ∉ (amd_comgr_do_action k info stage stageAgg st input result).2.2 := by
  by_cases hpre : actionPrecondOk k info (qualifyingInputs st k input) = true
  · intro hmem'
    have := do_action_result_fresh k info stage stageAgg st input result h hpre hmem'
    omega
  · exact absurd (by simp [amd_comgr_do_action, hpre]) hrun

/-- Claim C1, witness for the amended statement: a log object left in the
result set from an earlier call is removed by a link action. -/
theorem claim_C1_amended_witness :
    (0 : Nat) ∉ (amd_comgr_do_action ActionKind.LINK_BC_TO_BC
        ⟨['g'], SourceLanguage.NONE, [], [], false⟩
        (fun _ _ _ => some []) (fun _ _ _ => some [])
        ⟨[⟨0, DataKind.LOG, [], [], 1, []⟩], 1⟩ [] [0]).2.2 :=
  claim_C1_amended ActionKind.LINK_BC_TO_BC
    ⟨['g'], SourceLanguage.NONE, [], [], false⟩
    (fun _ _ _ => some []) (fun _ _ _ => some [])
    ⟨[⟨0, DataKind.LOG, [], [], 1, []⟩], 1⟩ [] [0] 0
    (by decide) (by decide) (by decide)

/-- Claim C4: for a per-item action whose precondition holds, if the stage
processor fails on some qualifying input then the call returns the
generic `ERROR` status; and the per-item loop never processes an item
beyond the first failing one — its outcome does not depend on what
follows a failing item. -/
theorem claim_C4 (k : ActionKind) (info : ActionInfo)
    (stage : ActionKind → ActionInfo → DataObject → Option (List Nat))
    (stageAgg : ActionKind → ActionInfo → List DataObject → Option (List Nat))
    (st : ComgrState) (input result : List Nat)
    (hper : perItemAction k = true)
    (hpre : actionPrecondOk k info (qualifyingInputs st k input) = true)
    (hfail : ∃ d ∈ qualifyingInputs st k input, stage k info d = none) :
    (amd_comgr_do_action k info stage stageAgg st input result).1 = Status.ERROR
    ∧ ∀ (st' : ComgrState) (l₁ : List DataObject) (x : DataObject)
        (l₂ l₂' : List DataObject),
        stage k info x = none →
        processItems k info stage st' (l₁ ++ x :: l₂) =
          processItems k info stage st' (l₁ ++ x :: l₂') := by
  constructor
  · have herr := processItems_fail k info stage (qualifyingInputs st k input)
      (result.foldl releaseHandle st) hfail
    by_cases hlog : info.logging = true
    · simp only [amd_comgr_do_action, hpre, hper, hlog, if_true]
      exact herr
    · simp only [amd_comgr_do_action, hpre, hper, hlog, if_true, if_false,
        Bool.false_eq_true]
      exact herr
  · intro st' l₁ x l₂ l₂' hx
    exact processItems_stop k info stage l₁ x l₂ l₂' st' hx

/-- Claim C4, witness at a concrete instance: a preprocess action whose
stage processor fails on the one source input returns `ERROR`. -/
theorem claim_C4_witness :
    (amd_comgr_do_action ActionKind.SOURCE_TO_PREPROCESSOR
        ⟨['g'], SourceLanguage.OPENCL_1_2, [], [], false⟩
        (fun _ _ _ => none) (fun _ _ _ => none)
        ⟨[⟨0, DataKind.SOURCE, [], [], 1, []⟩], 1⟩ [0] []).1 = Status.ERROR :=
  (claim_C4 ActionKind.SOURCE_TO_PREPROCESSOR
    ⟨['g'], SourceLanguage.OPENCL_1_2, [], [], false⟩
    (fun _ _ _ => none) (fun _ _ _ => none)
    ⟨[⟨0, DataKind.SOURCE, [], [], 1, []⟩], 1⟩ [0] []
    (by decide) (by decide)
    ⟨⟨0, DataKind.SOURCE, [], [], 1, []⟩, by decide, rfl⟩).1

/-- Claim C10: in every store reachable through the public interface no
data object has the `UNDEF` kind — `amd_comgr_create_data` rejects it
and the kind is immutable — so the documented
`AMD_COMGR_DATA_KIND_UNDEF` failure branch of the per-object operations
is unreachable for objects the interface itself created. -/
theorem claim_C10 (st : ComgrState) (hreach : Reachable st) :
    (∀ d ∈ st.objects, d.kind ≠ DataKind.UNDEF)
    ∧ (∀ h : Nat, undefKindBranch st h = false)
    ∧ (amd_comgr_create_data st DataKind.UNDEF).1 = Status.ERROR_INVALID_ARGUMENT := by
  have hinv := reachable_noUndef st hreach
  refine ⟨hinv, ?_, by simp [amd_comgr_create_data]⟩
  intro h
  unfold undefKindBranch
  cases hres : resolve st h with
  | none => rfl
  | some d =>
    simp only [beq_eq_false_iff_ne]
    exact hinv d (resolve_mem st h d hres)

/-- Claim C10, witness at a concrete reachable store. -/
theorem claim_C10_witness :
    undefKindBranch (amd_comgr_create_data initState DataKind.SOURCE).2.1 0 = false :=
  (claim_C10 (amd_comgr_create_data initState DataKind.SOURCE).2.1
    (Reachable.create initState DataKind.SOURCE Reachable.init)).2.1 0
